import Mathlib

/-!
Verification of the ophid operational toolkit (Go) against its
natural-language specification.

The Go sources are shallowly embedded: pure string manipulation is
translated to functions over `List Char` / `String`, stateful code to
explicit state passing, effectful steps (network, filesystem,
subprocesses) to explicit outcome oracles threaded as arguments, and Go
`error` returns to `Except String`.  Machine integers (`int32` counters)
are embedded as `Int` with explicit wrapping modulo `2^32`.
-/

set_option maxRecDepth 4000

/-! ## Go string primitives

The Go standard library functions used by the repository
(`strings.HasPrefix/HasSuffix/Contains/Split/TrimSuffix/TrimPrefix`,
`filepath.Clean`, `filepath.Join`) operate on byte strings.  They are
embedded here over `List Char`; for the valid-UTF-8 strings the program
handles, byte-level prefix/suffix/containment coincides with
character-level prefix/suffix/containment. -/

/-- `strings.HasPrefix s pre`. -/
def goStartsWith (s pre : String) : Bool :=
  pre.data.isPrefixOf s.data

/-- `strings.HasSuffix s suf`. -/
def goEndsWith (s suf : String) : Bool :=
  suf.data.isSuffixOf s.data

/-- Whether `sub` occurs contiguously inside `s` (`strings.Contains`). -/
def containsSub : List Char → List Char → Bool
  | _, [] => true
  | [], _ :: _ => false
  | c :: rest, sub => sub.isPrefixOf (c :: rest) || containsSub rest sub

/-- `strings.Contains s sub`. -/
def goContains (s sub : String) : Bool :=
  containsSub s.data sub.data

/-- `strings.TrimSuffix s suf`: removes the trailing `suf` when present. -/
def goTrimSuffix (s suf : String) : String :=
  if goEndsWith s suf then ⟨s.data.take (s.data.length - suf.data.length)⟩ else s

/-- `strings.TrimPrefix s pre`: removes the leading `pre` when present. -/
def goTrimPrefix (s pre : String) : String :=
  if goStartsWith s pre then ⟨s.data.drop pre.data.length⟩ else s

/-- `strings.Split` on a one-character separator (the repository only
splits on `"/"`, `"\n"` and `","`).  Like Go's `strings.Split`, the
result is never empty and keeps empty fields. -/
def splitOnChar (sep : Char) : List Char → List (List Char)
  | [] => [[]]
  | c :: rest =>
    match splitOnChar sep rest with
    | [] => [[]]
    | g :: gs => if c = sep then [] :: g :: gs else (c :: g) :: gs

/-- `strings.Split s (String.singleton sep)` at the `String` level. -/
def goSplit (s : String) (sep : Char) : List String :=
  (splitOnChar sep s.data).map (fun cs => ⟨cs⟩)

/-! ## Core A: `filepath.Clean` / `filepath.Join` (Unix rules)

Models Go's `path/filepath.Clean` with `'/'` as the separator: split the
path into `/`-separated components, drop empty and `"."` components,
resolve `".."` against a stack (a `".."` at the root of a rooted path is
dropped; in a relative path it is kept when nothing can be popped), and
reassemble; an empty result becomes `"."`. -/

/-- Component resolution of `filepath.Clean`: `stack` holds the already
accepted components in reverse order. -/
def cleanComponents (rooted : Bool) : List (List Char) → List (List Char) → List (List Char)
  | [], stack => stack.reverse
  | comp :: rest, stack =>
    if comp = [] ∨ comp = ['.'] then cleanComponents rooted rest stack
    else if comp = ['.', '.'] then
      match stack with
      | top :: stack' =>
        if top = ['.', '.'] then cleanComponents rooted rest (comp :: top :: stack')
        else cleanComponents rooted rest stack'
      | [] =>
        if rooted then cleanComponents rooted rest []
        else cleanComponents rooted rest [comp]
    else cleanComponents rooted rest (comp :: stack)

/-- `filepath.Clean` for Unix separators. -/
def cleanPath (path : String) : String :=
  if path = "" then "."
  else
    let rooted := goStartsWith path "/"
    let comps := cleanComponents rooted (splitOnChar '/' path.data) []
    let joined := String.intercalate "/" (comps.map (fun cs => ⟨cs⟩))
    if rooted then "/" ++ joined
    else if joined = "" then "." else joined

/-- `filepath.Join a b` for two elements (Unix): skip leading empty
elements, then `Clean` the `"/"`-joined rest. -/
def joinPath (a b : String) : String :=
  if a = "" then (if b = "" then "" else cleanPath b)
  else cleanPath (a ++ "/" ++ b)

/-! ## Core A: tar.gz extraction (`internal/runtime/extractor.go`)

`Extract` walks the archive entries; for each entry it joins the
destination directory with the entry's declared name and rejects the
entry (failing the whole extraction) unless the joined target has
`filepath.Clean(destDir) + "/"` as a prefix.  Directory, regular-file
and symlink entries are written at the target path (parents of the
target are created as needed, all of them below the already-existing
destination directory); other entry types are skipped.  The embedding
returns the list of target paths written and `some errMsg` when the
extraction was aborted. -/

inductive TarTypeflag where
  | dir
  | reg
  | symlink
  | other
  deriving DecidableEq, Repr

structure TarHeader where
  name : String
  linkname : String
  typeflag : TarTypeflag
  deriving DecidableEq, Repr

/-- The per-entry path-traversal guard of `Extract`
(`strings.HasPrefix(target, filepath.Clean(destDir)+string(os.PathSeparator))`). -/
def extractGuard (destDir : String) (hdr : TarHeader) : Bool :=
  goStartsWith (joinPath destDir hdr.name) (cleanPath destDir ++ "/")

/-- `Extractor.Extract`: first component is the list of paths written
(in order), second is `some msg` when the extraction aborted. -/
def extractGo (destDir : String) : List TarHeader → List String × Option String
  | [] => ([], none)
  | hdr :: rest =>
    if extractGuard destDir hdr then
      match hdr.typeflag with
      | .other => extractGo destDir rest
      | _ =>
        let r := extractGo destDir rest
        (joinPath destDir hdr.name :: r.1, r.2)
    else
      ([], some ("illegal file path: " ++ hdr.name))

/-- Helper: how `extractGo` unfolds on a guard-passing entry. -/
theorem extractGo_cons_of_guard {destDir : String} {h : TarHeader} (t : List TarHeader)
    (hg : extractGuard destDir h = true) :
    extractGo destDir (h :: t) =
      if h.typeflag = .other then extractGo destDir t
      else (joinPath destDir h.name :: (extractGo destDir t).1, (extractGo destDir t).2) := by
  simp only [extractGo, hg, if_true]
  cases h.typeflag <;> simp

/-- Claim C1: every filesystem entry written by `Extract` is at a path
having `filepath.Clean(destDir) + "/"` as a prefix, and an archive entry
whose joined target lacks that prefix aborts the whole extraction with an
error and is itself never written. -/
theorem extract_confined_to_destination (destDir : String) (entries : List TarHeader) :
    (∀ p ∈ (extractGo destDir entries).1, goStartsWith p (cleanPath destDir ++ "/") = true) ∧
    (∀ hdr ∈ entries, extractGuard destDir hdr = false →
      ((extractGo destDir entries).2.isSome = true ∧
        joinPath destDir hdr.name ∉ (extractGo destDir entries).1)) := by
  induction entries with
  | nil =>
    refine ⟨?_, ?_⟩
    · intro p hp; simp [extractGo] at hp
    · intro hdr hmem; simp at hmem
  | cons h t ih =>
    by_cases hg : extractGuard destDir h = true
    · rw [extractGo_cons_of_guard t hg]
      by_cases hty : h.typeflag = .other
      · rw [if_pos hty]
        refine ⟨ih.1, ?_⟩
        intro hdr hmem hbad
        rcases List.mem_cons.mp hmem with rfl | hmem'
        · rw [hg] at hbad; cases hbad
        · exact ih.2 hdr hmem' hbad
      · rw [if_neg hty]
        refine ⟨?_, ?_⟩
        · intro p hp
          rcases List.mem_cons.mp hp with rfl | hp'
          · simpa [extractGuard] using hg
          · exact ih.1 p hp'
        · intro hdr hmem hbad
          rcases List.mem_cons.mp hmem with rfl | hmem'
          · rw [hg] at hbad; cases hbad
          · refine ⟨(ih.2 hdr hmem' hbad).1, ?_⟩
            intro hmem2
            rcases List.mem_cons.mp hmem2 with heq | hmem3
            · have : extractGuard destDir hdr = true := by
                simpa [extractGuard, heq] using hg
              rw [this] at hbad; cases hbad
            · exact (ih.2 hdr hmem' hbad).2 hmem3
    · have hres : extractGo destDir (h :: t) = ([], some ("illegal file path: " ++ h.name)) := by
        simp [extractGo, hg]
      rw [hres]
      refine ⟨?_, ?_⟩
      · intro p hp; simp at hp
      · intro hdr _ _; exact ⟨rfl, by simp⟩

/-- Witness for `extract_confined_to_destination`: a crafted archive
entry named `../evil` against destination `/dst` aborts the extraction
and its target `/evil` is not written. -/
theorem extract_confined_witness :
    (extractGo "/dst" [⟨"../evil", "", .reg⟩]).2.isSome = true ∧
      joinPath "/dst" "../evil" ∉ (extractGo "/dst" [⟨"../evil", "", .reg⟩]).1 :=
  (extract_confined_to_destination "/dst" [⟨"../evil", "", .reg⟩]).2
    ⟨"../evil", "", .reg⟩ (by decide) (by decide)

/-! ## Core D: route path matching (`internal/proxy/router.go`)

`matchPath` checks a route path pattern against a request path: exact
match, then trailing-`/*` patterns by plain string prefix of the pattern
without its `/*`, then leading-`/*` patterns by string suffix. -/

/-- `matchPath` from the router. -/
def matchPath (pattern path : String) : Bool :=
  if pattern = path then true
  else if goEndsWith pattern "/*" then
    goStartsWith path (goTrimSuffix pattern "/*")
  else if goStartsWith pattern "/*" then
    goEndsWith path (goTrimPrefix pattern "/*")
  else false

/-- Claim C10: for a pattern ending in `/*`, `matchPath` answers true
whenever the pattern minus the trailing `/*` is a plain string prefix of
the request path, with no separator boundary required, so `/api/*`
matches `/apifoo` and `/apix` as well as `/api/x` and `/api/`, and `/*`
matches every path. -/
theorem match_path_prefix_wildcard :
    (∀ pattern path : String, goEndsWith pattern "/*" = true →
      goStartsWith path (goTrimSuffix pattern "/*") = true →
      matchPath pattern path = true) ∧
    matchPath "/api/*" "/apifoo" = true ∧
    matchPath "/api/*" "/apix" = true ∧
    matchPath "/api/*" "/api/x" = true ∧
    matchPath "/api/*" "/api/" = true ∧
    (∀ path : String, matchPath "/*" path = true) := by
  refine ⟨?_, by decide, by decide, by decide, by decide, ?_⟩
  · intro pattern path hends hpre
    by_cases heq : pattern = path
    · simp [matchPath, heq]
    · simp [matchPath, heq, hends, hpre]
  · intro path
    by_cases heq : "/*" = path
    · simp [matchPath, heq]
    · have hpre : goStartsWith path (goTrimSuffix "/*" "/*") = true := by
        show List.isPrefixOf [] path.data = true
        simp [List.isPrefixOf]
      simp [matchPath, heq, hpre]
      exact Or.inl (by decide)

/-- Witness for `match_path_prefix_wildcard`: the pattern `/api/*` and
the path `/apiz`. -/
theorem match_path_prefix_wildcard_witness : matchPath "/api/*" "/apiz" = true :=
  match_path_prefix_wildcard.1 "/api/*" "/apiz" (by decide) (by decide)

/-! ## Core C: vulnerability scan results (`internal/security/sbom.go`)

`ScanResult.CriticalCount` walks every vulnerability and every one of its
severity records, incrementing the counter for each severity record of
type `CVSS_V3` whose score string starts with `CVSS:3` and contains
`/C:H` or `/9.`. -/

/-- An OSV severity record (`OSVSeverity`); `sevType` embeds the Go
field `Type`. -/
structure Severity where
  sevType : String
  score : String
  deriving DecidableEq, Repr

/-- An OSV vulnerability (`OSVVulnerability`), restricted to the fields
the verified operations consult. -/
structure OSVVulnerability where
  id : String
  summary : String
  severity : List Severity
  deriving DecidableEq, Repr

/-- A package under scan (`security.Package`). -/
structure Package where
  name : String
  version : String
  ecosystem : String
  deriving DecidableEq, Repr

/-- `security.ScanResult`. -/
structure ScanResult where
  pkg : Package
  vulnerabilities : List OSVVulnerability
  scanError : String
  deriving DecidableEq, Repr

/-- `ScanResult.CriticalCount`: one increment per matching severity
record (not per vulnerability). -/
def criticalCount (sr : ScanResult) : Nat :=
  sr.vulnerabilities.foldl (fun count vuln =>
    vuln.severity.foldl (fun count sev =>
      if sev.sevType == "CVSS_V3" && goStartsWith sev.score "CVSS:3" then
        if goContains sev.score "/C:H" || goContains sev.score "/9." then count + 1
        else count
      else count) count) 0

/-- A scan result with a single vulnerability carrying two critical
`CVSS_V3` severity records. -/
def doubleSeverityResult : ScanResult :=
  { pkg := { name := "requests", version := "2.28.0", ecosystem := "pypi" }
    vulnerabilities :=
      [{ id := "GHSA-demo", summary := "demo",
         severity :=
           [{ sevType := "CVSS_V3", score := "CVSS:3.1/AV:N/AC:L/PR:N/UI:N/S:U/C:H/I:H/A:H" },
            { sevType := "CVSS_V3", score := "CVSS:3.0/AV:N/AC:L/PR:N/UI:R/S:U/C:H/I:H/A:H" }]}]
    scanError := "" }

/-- Claim C7 (code bug): `CriticalCount` increments once per matching
severity record, so a single vulnerability with two `CVSS_V3` records
scoring `C:H` is counted twice — the count exceeds the number of
vulnerabilities, contradicting the per-finding counting the function's
own documentation and the specification describe. -/
theorem critical_count_exceeds_vuln_count :
    criticalCount doubleSeverityResult = 2 ∧
      doubleSeverityResult.vulnerabilities.length = 1 := by
  constructor
  · rfl
  · rfl

/-! ## Core B: tool manifest loading (`internal/tool/installer.go`)

`loadManifest` creates an empty manifest only when the manifest file
does not exist; a file that exists but cannot be read, or cannot be
parsed as JSON, makes `loadManifest` (and hence `NewInstaller`) return
an error.  The filesystem/JSON outcome is embedded as an oracle. -/

/-- Pre-flight security summary attached to a tool (`tool.SecurityInfo`). -/
structure SecurityInfo where
  vulnCount : Nat
  criticalVulnCount : Nat
  licenseCompliant : Bool
  deriving DecidableEq, Repr

/-- An installed tool record (`tool.Tool`), restricted to the fields the
verified operations consult. -/
structure Tool where
  name : String
  version : String
  ecosystem : String
  runtime : String
  installPath : String
  executables : List String
  security : SecurityInfo
  installedAt : Nat
  deriving DecidableEq, Repr

/-- `tool.ToolManifest`: the name-keyed tool registry. -/
structure ToolManifest where
  tools : List (String × Tool)
  updatedAt : Nat
  deriving DecidableEq, Repr

/-- Outcome of reading and parsing `manifest.json`. -/
inductive ManifestFile where
  | missing
  | unreadable
  | unparseable
  | parses (m : ToolManifest)
  deriving DecidableEq, Repr

/-- `Installer.loadManifest` (`now` stands for `time.Now()`). -/
def loadManifestGo (now : Nat) : ManifestFile → Except String ToolManifest
  | .missing => .ok { tools := [], updatedAt := now }
  | .unreadable => .error "failed to read manifest"
  | .unparseable => .error "failed to parse manifest"
  | .parses m => .ok m

/-- `NewInstaller`, reduced to its manifest-loading outcome: a
`loadManifest` error aborts construction. -/
def newInstallerManifest (now : Nat) (fs : ManifestFile) : Except String ToolManifest :=
  match loadManifestGo now fs with
  | .error e => .error ("failed to load manifest: " ++ e)
  | .ok m => .ok m

/-- Counterexample to claim C9 as stated: an existing-but-unreadable
manifest file does not yield an empty manifest — installer construction
fails with an error. -/
theorem unreadable_manifest_fails_cex :
    (newInstallerManifest 0 .unreadable).isOk = false ∧
      loadManifestGo 0 .unreadable ≠ .ok { tools := [], updatedAt := 0 } := by
  exact ⟨rfl, by simp [loadManifestGo]⟩

/-- Claim C9 (amended): a missing manifest file yields a valid empty
manifest and construction succeeds with zero tools, but an unreadable or
unparseable manifest file aborts installer construction with an error. -/
theorem manifest_load_initial_state (now : Nat) :
    loadManifestGo now .missing = .ok { tools := [], updatedAt := now } ∧
    (newInstallerManifest now .missing).isOk = true ∧
    (newInstallerManifest now .unreadable).isOk = false ∧
    (newInstallerManifest now .unparseable).isOk = false :=
  ⟨rfl, rfl, rfl, rfl⟩

/-! ## Core D: process supervisor (`internal/supervisor`)

The manager keeps a name-keyed registry of processes.  `Stop` errors
unless the named process exists and is running, kills it, marks it
stopped and deletes it from the registry.  `Start` errors when the name
is already running, otherwise spawns and registers the process as
running.  `Restart` calls `Stop`, looks the name up again and — the
entry having just been deleted — can only fail with
"process ... not found after stop".  Spawn and kill outcomes are
embedded as boolean oracles. -/

/-- `supervisor.ProcessConfig`, restricted to the fields the verified
operations consult (`MaxRetries` is a Go `int`). -/
structure ProcessConfig where
  name : String
  command : String
  args : List String
  autoRestart : Bool
  maxRetries : Int
  deriving DecidableEq, Repr

/-- Process state (`supervisor.ProcessStatus`). -/
inductive ProcessStatus where
  | stopped
  | starting
  | running
  | failed
  deriving DecidableEq, Repr

/-- A registered process (`supervisor.Process`); `cmdPresent` stands for
`Cmd != nil && Cmd.Process != nil`. -/
structure SupProcess where
  config : ProcessConfig
  restartCount : Int
  status : ProcessStatus
  cmdPresent : Bool
  deriving DecidableEq, Repr

/-- The manager's registry (`Manager.processes`), as an association
list keyed by process name. -/
def ManagerState := List (String × SupProcess)

/-- Map lookup `m.processes[name]`. -/
def lookupProc (st : ManagerState) (name : String) : Option SupProcess :=
  match st.find? (fun e => e.1 == name) with
  | some e => some e.2
  | none => none

/-- Map deletion `delete(m.processes, name)`. -/
def removeProc (st : ManagerState) (name : String) : ManagerState :=
  st.filter (fun e => !(e.1 == name))

/-- Map insertion `m.processes[name] = proc`. -/
def insertProc (st : ManagerState) (name : String) (p : SupProcess) : ManagerState :=
  (name, p) :: removeProc st name

/-- `Manager.Stop` (`killOk` is the outcome of `Cmd.Process.Kill()`). -/
def stopGo (st : ManagerState) (name : String) (killOk : Bool) :
    ManagerState × Except String Unit :=
  match lookupProc st name with
  | none => (st, .error ("process " ++ name ++ " not found"))
  | some p =>
    if p.status ≠ .running then (st, .error ("process " ++ name ++ " is not running"))
    else if p.cmdPresent && !killOk then (st, .error "failed to kill process")
    else (removeProc st name, .ok ())

/-- `Manager.Start` (`spawnOk` is the outcome of `cmd.Start()`; the
process record is registered only after a successful spawn). -/
def startGo (st : ManagerState) (config : ProcessConfig) (spawnOk : Bool) :
    ManagerState × Except String Unit :=
  match lookupProc st config.name with
  | some p =>
    if p.status = .running then (st, .error ("process " ++ config.name ++ " is already running"))
    else if spawnOk then
      (insertProc st config.name
        { config := config, restartCount := 0, status := .running, cmdPresent := true }, .ok ())
    else (st, .error "failed to start process")
  | none =>
    if spawnOk then
      (insertProc st config.name
        { config := config, restartCount := 0, status := .running, cmdPresent := true }, .ok ())
    else (st, .error "failed to start process")

/-- `Manager.Restart`: `Stop`, re-lookup, then `Start` with the prior
configuration. -/
def restartGo (st : ManagerState) (name : String) (killOk spawnOk : Bool) :
    ManagerState × Except String Unit :=
  match stopGo st name killOk with
  | (st1, .error e) => (st1, .error e)
  | (st1, .ok _) =>
    match lookupProc st1 name with
    | none => (st1, .error ("process " ++ name ++ " not found after stop"))
    | some p => startGo st1 p.config spawnOk

/-- A deleted name can no longer be looked up. -/
theorem lookupProc_removeProc (st : ManagerState) (name : String) :
    lookupProc (removeProc st name) name = none := by
  unfold lookupProc removeProc
  induction st with
  | nil => rfl
  | cons e t ih =>
    by_cases he : e.1 == name
    · simpa [he] using ih
    · simpa [List.find?, he] using ih

/-- A demonstration registry holding one running process named `web`. -/
def demoRegistry : ManagerState :=
  [("web",
    { config := { name := "web", command := "./serve", args := [],
                  autoRestart := false, maxRetries := 0 },
      restartCount := 0, status := .running, cmdPresent := true })]

/-- Claim C4 (code bug): `Restart` never succeeds — `Stop` deletes the
registry entry, so the re-lookup inside `Restart` always fails with
"process ... not found after stop" instead of starting the process
again; in particular it fails on a registry holding the running process
`web` even though both kill and spawn succeed. -/
theorem restart_always_errors :
    (∀ (st : ManagerState) (name : String) (killOk spawnOk : Bool),
      ((restartGo st name killOk spawnOk).2).isOk = false) ∧
    restartGo demoRegistry "web" true true =
      ([], .error "process web not found after stop") := by
  constructor
  · intro st name killOk spawnOk
    unfold restartGo
    rcases hstop : stopGo st name killOk with ⟨st1, r⟩
    rcases r with e | u
    · rfl
    · have hnone : lookupProc st1 name = none := by
        unfold stopGo at hstop
        rcases hlk : lookupProc st name with _ | p <;> rw [hlk] at hstop
        · cases hstop
        · simp only at hstop
          split at hstop
          · cases hstop
          · split at hstop
            · cases hstop
            · injection hstop with h1 h2
              rw [← h1]
              exact lookupProc_removeProc st name
      simp only [hnone]
      rfl
  · rfl

/-! ## Core D: process monitoring (`Manager.monitorProcess`)

The monitor waits for an exit, marks the process stopped, and — when
`AutoRestart` is set and `RestartCount < MaxRetries` — increments the
counter and re-spawns, resuming monitoring; a failed re-spawn is
terminal `failed`.  With the budget exhausted (or auto-restart off), an
errored exit is terminal `failed` and a clean exit is terminal
`stopped`.  The trace of observed exits (wait error and re-spawn
outcome) is passed explicitly; a trace that runs out leaves the process
`running`. -/

/-- One observed process exit: whether `Cmd.Wait()` returned an error,
and whether the subsequent re-spawn (if attempted) succeeds. -/
structure ExitEvent where
  erred : Bool
  respawnOk : Bool
  deriving DecidableEq, Repr

/-- `Manager.monitorProcess`, as a function of the restart counter and
the exit trace; returns the final `RestartCount` and status. -/
def monitorRun (autoRestart : Bool) (maxRetries : Int) :
    Int → List ExitEvent → Int × ProcessStatus
  | rc, [] => (rc, .running)
  | rc, e :: rest =>
    if autoRestart && decide (rc < maxRetries) then
      if e.respawnOk then monitorRun autoRestart maxRetries (rc + 1) rest
      else (rc + 1, .failed)
    else
      (rc, if e.erred then .failed else .stopped)

/-- Counterexample to claim C6 as stated: with auto-restart on and the
retry budget exhausted (`max_retries = 0`), a process that exits cleanly
ends `stopped`, not terminal `failed`. -/
theorem exhausted_clean_exit_not_failed_cex :
    monitorRun true 0 0 [{ erred := false, respawnOk := true }] = (0, .stopped) ∧
      (monitorRun true 0 0 [{ erred := false, respawnOk := true }]).2 ≠ .failed := by
  exact ⟨rfl, by decide⟩

/-- Claim C6 (amended): the monitor re-spawns at most `max_retries`
times — `restart_count` never exceeds a non-negative `max_retries` — and
once the budget is exhausted the next exit is terminal with no further
restart: `failed` when the process exited with an error, `stopped` when
it exited cleanly. -/
theorem restart_cap_and_terminal_states (autoRestart : Bool) (maxRetries rc : Int)
    (trace : List ExitEvent) :
    (rc ≤ maxRetries → (monitorRun autoRestart maxRetries rc trace).1 ≤ maxRetries) ∧
    (maxRetries ≤ rc → ∀ (e : ExitEvent) (rest : List ExitEvent),
      monitorRun autoRestart maxRetries rc (e :: rest) =
        (rc, if e.erred then .failed else .stopped)) := by
  constructor
  · induction trace generalizing rc with
    | nil => intro h; simpa [monitorRun] using h
    | cons e rest ih =>
      intro h
      by_cases hb : autoRestart && decide (rc < maxRetries)
      · have hlt : rc < maxRetries := by
          have := (Bool.and_eq_true _ _).mp hb
          exact of_decide_eq_true this.2
        by_cases hr : e.respawnOk
        · simpa [monitorRun, hb, hr] using ih (rc + 1) (by omega)
        · simp [monitorRun, hb, hr]
          omega
      · simpa [monitorRun, hb] using h
  · intro h e rest
    have hb : (autoRestart && decide (rc < maxRetries)) = false := by
      have : ¬rc < maxRetries := by omega
      simp [this]
    simp [monitorRun, hb]

/-- Witness for `restart_cap_and_terminal_states`: auto-restart with a
budget of two retries over three errored exits — the counter ends at 2
and the third exit is terminal `failed`. -/
theorem restart_cap_witness :
    (monitorRun true 2 0
        [{ erred := true, respawnOk := true }, { erred := true, respawnOk := true },
         { erred := true, respawnOk := true }]).1 ≤ 2 ∧
      monitorRun true 2 2 [{ erred := true, respawnOk := true }] = (2, .failed) := by
  constructor
  · exact (restart_cap_and_terminal_states true 2 0
      [{ erred := true, respawnOk := true }, { erred := true, respawnOk := true },
       { erred := true, respawnOk := true }]).1 (by decide)
  · exact (restart_cap_and_terminal_states true 2 2
      [{ erred := true, respawnOk := true }]).2 (by decide)
      { erred := true, respawnOk := true } []

/-! ## Core A: Python checksum lookup (`internal/runtime/verifier.go`,
`internal/runtime/manager.go`)

`extractSHA256FromReleaseNotes` splits the release body into lines,
finds the first line containing the archive filename, and scans that
line and the following four for the first match of the RE2 pattern
`sha256:\s*([a-fA-F0-9]{64})`, lowercasing the captured hash.  Missing
filename and missing hash give distinct errors.  `installPython` calls
`GetSHA256ForVersion` and, when it fails, logs a warning and continues
to extraction without any checksum verification. -/

/-- RE2 `\s`. -/
def regexpSpace (c : Char) : Bool :=
  c = ' ' || c = '\t' || c = '\n' || c = '\x0c' || c = '\r'

/-- ASCII hex digit (`[a-fA-F0-9]`). -/
def hexDigit (c : Char) : Bool :=
  ('0' ≤ c && c ≤ '9') || ('a' ≤ c && c ≤ 'f') || ('A' ≤ c && c ≤ 'F')

/-- Consume an exact literal prefix, returning the remainder. -/
def dropLiteral : List Char → List Char → Option (List Char)
  | [], rest => some rest
  | _ :: _, [] => none
  | l :: ls, c :: cs => if c = l then dropLiteral ls cs else none

/-- Try the hash pattern anchored at the current position:
`sha256:`, then whitespace, then exactly 64 hex digits (a longer hex
run still matches on its first 64 digits, as the regexp does). -/
def matchHashAt (cs : List Char) : Option (List Char) :=
  match dropLiteral "sha256:".data cs with
  | none => none
  | some rest =>
    let afterSpace := rest.dropWhile regexpSpace
    let h := afterSpace.take 64
    if h.length = 64 && h.all hexDigit then some h else none

/-- Leftmost match of the hash pattern in a line
(`regexp.FindStringSubmatch`). -/
def findHashInLine : List Char → Option (List Char)
  | [] => none
  | c :: rest =>
    match matchHashAt (c :: rest) with
    | some h => some h
    | none => findHashInLine rest

/-- First hash found scanning a list of lines in order. -/
def findHashInLines : List String → Option (List Char)
  | [] => none
  | line :: rest =>
    match findHashInLine line.data with
    | some h => some h
    | none => findHashInLines rest

/-- `Verifier.extractSHA256FromReleaseNotes`. -/
def extractSHA256FromReleaseNotes (body filename : String) : Except String String :=
  match (goSplit body '\n').findIdx? (fun line => goContains line filename) with
  | none => .error ("filename " ++ filename ++ " not found in release notes")
  | some filenameIdx =>
    match findHashInLines (((goSplit body '\n').drop filenameIdx).take 5) with
    | some h => .ok ⟨h.map Char.toLower⟩
    | none => .error "SHA256 hash not found near filename in release notes"

/-- The effectful surroundings of `Manager.installPython`: the download
outcome, the `VerifyFileExists` outcome, the GitHub release-notes fetch,
the archive filename derived from version/build-date/platform, the
actual SHA-256 of the downloaded tarball, and the extraction outcome. -/
structure PyInstallEnv where
  downloadResult : Except String String
  fileOk : Bool
  releaseBody : Except String String
  filename : String
  actualHash : String
  extractOk : Bool
  deriving Repr

/-- What `installPython` did: whether the checksum was verified before
extraction, and whether extraction ran. -/
structure PyInstallTrace where
  verifiedChecksum : Bool
  extracted : Bool
  deriving DecidableEq, Repr

/-- `Verifier.GetSHA256ForVersion`: fetch the release body and extract
the hash for the archive filename. -/
def getSHA256ForVersion (env : PyInstallEnv) : Except String String :=
  match env.releaseBody with
  | .error e => .error e
  | .ok body =>
    match extractSHA256FromReleaseNotes body env.filename with
    | .error e => .error ("failed to extract SHA256 for " ++ env.filename ++ ": " ++ e)
    | .ok h => .ok h

/-- `Manager.installPython`: download, check the file exists, try to
fetch the expected hash — on failure only log a warning and skip the
integrity check — then extract. -/
def installPython (env : PyInstallEnv) : Except String PyInstallTrace :=
  match env.downloadResult with
  | .error e => .error ("download failed: " ++ e)
  | .ok _ =>
    if !env.fileOk then .error "verification failed"
    else
      match getSHA256ForVersion env with
      | .error _ =>
        -- slog.Warn "failed to fetch SHA256 hash, skipping integrity check"
        if env.extractOk then .ok { verifiedChecksum := false, extracted := true }
        else .error "extraction failed"
      | .ok expectedHash =>
        if env.actualHash ≠ expectedHash then
          .error "SHA256 verification failed: checksum mismatch"
        else if env.extractOk then .ok { verifiedChecksum := true, extracted := true }
        else .error "extraction failed"

/-- An install environment whose release notes do not mention the
archive filename at all. -/
def shaMissingEnv : PyInstallEnv :=
  { downloadResult := .ok "/home/.ophid/cache/downloads/cpython.tar.gz"
    fileOk := true
    releaseBody := .ok "release notes without any checksum section"
    filename := "cpython-3.12.1+20240107-x86_64-unknown-linux-gnu-install_only.tar.gz"
    actualHash := "aaaaaaaaaaaaaaaaaaaaaaaaaaaaaaaaaaaaaaaaaaaaaaaaaaaaaaaaaaaaaaaa"
    extractOk := true }

/-- Counterexample to claim C2 as stated: when the sha256 cannot be
extracted from the release notes, `installPython` does not abort — it
completes, extracting the archive without any verified checksum. -/
theorem sha_missing_still_extracts_cex :
    (getSHA256ForVersion shaMissingEnv).isOk = false ∧
      installPython shaMissingEnv = .ok { verifiedChecksum := false, extracted := true } := by
  exact ⟨rfl, rfl⟩

/-- Claim C2 (amended): when the sha256 for the exact archive filename
cannot be extracted from the release notes, `extractSHA256FromReleaseNotes`
returns a distinct error (one message for an absent filename, another for
no `sha256:` hash within the five lines starting at the filename line),
but `installPython` then only logs a warning and proceeds to extraction
without checksum verification instead of aborting. -/
theorem sha_missing_warns_and_extracts (env : PyInstallEnv) (p e : String)
    (hdl : env.downloadResult = .ok p) (hfile : env.fileOk = true)
    (hsha : getSHA256ForVersion env = .error e) (hex : env.extractOk = true) :
    installPython env = .ok { verifiedChecksum := false, extracted := true } ∧
    (∀ body filename : String,
      (goSplit body '\n').findIdx? (fun line => goContains line filename) = none →
      extractSHA256FromReleaseNotes body filename =
        .error ("filename " ++ filename ++ " not found in release notes")) ∧
    (∀ body filename : String, ∀ idx : Nat,
      (goSplit body '\n').findIdx? (fun line => goContains line filename) = some idx →
      findHashInLines (((goSplit body '\n').drop idx).take 5) = none →
      extractSHA256FromReleaseNotes body filename =
        .error "SHA256 hash not found near filename in release notes") := by
  refine ⟨?_, ?_, ?_⟩
  · unfold installPython
    rw [hdl, hfile, hsha]
    simp [hex]
  · intro body filename hnone
    simp only [extractSHA256FromReleaseNotes, hnone]
  · intro body filename idx hidx hnohash
    simp only [extractSHA256FromReleaseNotes, hidx, hnohash]

/-- Witness for `sha_missing_warns_and_extracts`: the environment
`shaMissingEnv`, whose release notes lack the filename. -/
theorem sha_missing_warns_witness :
    installPython shaMissingEnv = .ok { verifiedChecksum := false, extracted := true } :=
  (sha_missing_warns_and_extracts shaMissingEnv
    "/home/.ophid/cache/downloads/cpython.tar.gz"
    ("failed to extract SHA256 for cpython-3.12.1+20240107-x86_64-unknown-linux-gnu-install_only.tar.gz: filename cpython-3.12.1+20240107-x86_64-unknown-linux-gnu-install_only.tar.gz not found in release notes")
    rfl rfl rfl rfl).1

/-! ## Core B: PyPI installation (`Installer.installFromPyPI`)

Phase 1 resolves the version (latest from the index when unspecified),
runs the pre-flight vulnerability scan, and — when the caller required
the scan and a critical vulnerability count above zero came back —
aborts before phase 2 ever creates a venv or touches the manifest.
Installer state (venv directories on disk, the in-memory manifest and
the manifest file) is passed explicitly; network, venv, pip and
filesystem outcomes are oracles. -/

/-- `tool.InstallOptions`, restricted to the fields `installFromPyPI`
consults. -/
structure InstallOptions where
  version : String
  force : Bool
  noDeps : Bool
  editable : Bool
  extras : List String
  skipScan : Bool
  requireScan : Bool
  deriving DecidableEq, Repr

/-- Installer-visible state: venv directories existing on disk, the
in-memory manifest, and the manifest as last persisted. -/
structure InstallerState where
  venvDirs : List String
  manifest : ToolManifest
  manifestFile : ToolManifest
  deriving DecidableEq, Repr

/-- Outcomes of the effectful steps of `installFromPyPI`. -/
structure PyPIEnv where
  latestVersion : Except String String
  scanOutcome : Except String (List ScanResult)
  venvPath : String
  venvCreateOk : Bool
  pipOk : Bool
  installedVersion : Except String String
  executables : Except String (List String)
  saveOk : Bool
  now : Nat

/-- `Installer.scanPyPIPackage`: a failed scan degrades to an empty
summary; otherwise the counts come from the first result's
vulnerability list and `CriticalCount`. -/
def scanPyPIPackage (env : PyPIEnv) : SecurityInfo :=
  match env.scanOutcome with
  | .error _ => { vulnCount := 0, criticalVulnCount := 0, licenseCompliant := true }
  | .ok results =>
    match results.head? with
    | none => { vulnCount := 0, criticalVulnCount := 0, licenseCompliant := true }
    | some r =>
      { vulnCount := r.vulnerabilities.length
        criticalVulnCount := criticalCount r
        licenseCompliant := true }

/-- Phase 2 of `installFromPyPI` (venv creation onward). -/
def installPyPIPhase2 (st : InstallerState) (env : PyPIEnv) (name : String)
    (opts : InstallOptions) (secInfo : SecurityInfo) :
    InstallerState × Except String Tool :=
  if !env.venvCreateOk then (st, .error "failed to create venv")
  else
    let st1 : InstallerState := { st with venvDirs := env.venvPath :: st.venvDirs }
    if !env.pipOk then (st1, .error "pip install failed")
    else
      let installedVersion :=
        match env.installedVersion with
        | .ok v => v
        | .error _ =>
          if opts.version = "" ∨ opts.version = "latest" then "unknown" else opts.version
      let executables := match env.executables with | .ok es => es | .error _ => []
      let tool : Tool :=
        { name := name, version := installedVersion, ecosystem := "python"
          runtime := "python3", installPath := env.venvPath
          executables := executables, security := secInfo, installedAt := env.now }
      let st2 : InstallerState :=
        { st1 with
          manifest :=
            { tools := (name, tool) :: st1.manifest.tools.filter (fun e => !(e.1 == name))
              updatedAt := env.now } }
      if !env.saveOk then (st2, .error "failed to save manifest")
      else ({ st2 with manifestFile := st2.manifest }, .ok tool)

/-- `Installer.installFromPyPI`. -/
def installFromPyPI (st : InstallerState) (env : PyPIEnv) (name : String)
    (opts : InstallOptions) : InstallerState × Except String Tool :=
  if !opts.skipScan then
    let secInfo := scanPyPIPackage env
    if opts.requireScan && decide (secInfo.criticalVulnCount > 0) then
      (st, .error ("critical vulnerabilities found - installation blocked: " ++ name))
    else installPyPIPhase2 st env name opts secInfo
  else
    installPyPIPhase2 st env name opts
      { vulnCount := 0, criticalVulnCount := 0, licenseCompliant := true }

/-- Claim C3: a registry install with `require_scan` set whose pre-flight
scan reports a critical count above zero returns an error with the
installer state unchanged — no venv directory is created and no manifest
entry is written. -/
theorem pypi_preflight_block_no_side_effects (st : InstallerState) (env : PyPIEnv)
    (name : String) (opts : InstallOptions) (results : List ScanResult) (r : ScanResult)
    (hreq : opts.requireScan = true) (hskip : opts.skipScan = false)
    (hscan : env.scanOutcome = .ok results) (hhead : results.head? = some r)
    (hcrit : criticalCount r > 0) :
    (installFromPyPI st env name opts).1 = st ∧
      ((installFromPyPI st env name opts).2).isOk = false := by
  have hsec : scanPyPIPackage env =
      { vulnCount := r.vulnerabilities.length
        criticalVulnCount := criticalCount r
        licenseCompliant := true } := by
    simp only [scanPyPIPackage, hscan, hhead]
  have hblock : (opts.requireScan &&
      decide ((scanPyPIPackage env).criticalVulnCount > 0)) = true := by
    rw [hsec, hreq]
    simpa using hcrit
  simp only [installFromPyPI, hskip, Bool.not_false, if_true, hblock]
  trivial

/-- A scan result reporting one critical `CVSS_V3` vulnerability, as in
the specification's pre-flight-block scenario. -/
def criticalScanResult : ScanResult :=
  { pkg := { name := "leftpad", version := "1.0.0", ecosystem := "pypi" }
    vulnerabilities :=
      [{ id := "OSV-2024-1", summary := "rce",
         severity := [{ sevType := "CVSS_V3",
                        score := "CVSS:3.1/AV:N/AC:L/PR:N/UI:N/S:U/C:H/I:H/A:H" }] }]
    scanError := "" }

/-- Witness for `pypi_preflight_block_no_side_effects`: a concrete
installer state and environment whose scan returns one critical
vulnerability. -/
theorem pypi_preflight_block_witness :
    (installFromPyPI
        { venvDirs := [], manifest := { tools := [], updatedAt := 0 },
          manifestFile := { tools := [], updatedAt := 0 } }
        { latestVersion := .ok "1.0.0", scanOutcome := .ok [criticalScanResult],
          venvPath := "/home/.ophid/tools/leftpad/venv", venvCreateOk := true,
          pipOk := true, installedVersion := .ok "1.0.0", executables := .ok [],
          saveOk := true, now := 7 }
        "leftpad"
        { version := "1.0.0", force := false, noDeps := false, editable := false,
          extras := [], skipScan := false, requireScan := true }).1 =
      { venvDirs := [], manifest := { tools := [], updatedAt := 0 },
        manifestFile := { tools := [], updatedAt := 0 } } ∧
    ((installFromPyPI
        { venvDirs := [], manifest := { tools := [], updatedAt := 0 },
          manifestFile := { tools := [], updatedAt := 0 } }
        { latestVersion := .ok "1.0.0", scanOutcome := .ok [criticalScanResult],
          venvPath := "/home/.ophid/tools/leftpad/venv", venvCreateOk := true,
          pipOk := true, installedVersion := .ok "1.0.0", executables := .ok [],
          saveOk := true, now := 7 }
        "leftpad"
        { version := "1.0.0", force := false, noDeps := false, editable := false,
          extras := [], skipScan := false, requireScan := true }).2).isOk = false :=
  pypi_preflight_block_no_side_effects _ _ "leftpad" _ [criticalScanResult]
    criticalScanResult rfl rfl rfl rfl (by decide)

/-! ## Core D: load balancer (`internal/proxy`)

`SelectBackend` filters the route's backends to those whose health
status is `healthy` and dispatches on the strategy string; an empty
healthy set yields no backend and `ServeHTTP` answers 503.  The shared
atomic `int32` counter is threaded explicitly and wraps modulo `2^32`
into the signed range, exactly as `atomic.Int32.Add` does; a negative
counter would make the Go slice indexing panic, embedded as `none`. -/

/-- Backend health (`proxy.Health`); the status is the Go string
constant (`"healthy"` / `"unhealthy"` / `"unknown"`), connections an
`int32` counter. -/
structure Health where
  status : String
  activeConnections : Int
  deriving DecidableEq, Repr

/-- `proxy.Backend`, restricted to the fields the load balancer
consults (`Weight` is a Go `int`). -/
structure Backend where
  name : String
  urlStr : String
  weight : Int
  health : Health
  deriving DecidableEq, Repr

/-- Wrap an integer into the signed 32-bit range, as Go `int32`
arithmetic does. -/
def int32wrap (x : Int) : Int := (x + 2 ^ 31) % 2 ^ 32 - 2 ^ 31

/-- `LoadBalancer.roundRobin` over an arbitrary element type: increment
the counter, index modulo the list length with Go's truncated `%`.  A
negative index (possible once the `int32` counter wraps) panics in Go:
embedded as `none`. -/
def roundRobinGo (backends : List α) (counter : Int) : Int × Option α :=
  if backends.length = 0 then (counter, none)
  else
    let c := int32wrap (counter + 1)
    let i := Int.tmod c (Int.ofNat backends.length)
    (c, if 0 ≤ i then backends.get? i.toNat else none)

/-- Inner loop of `LoadBalancer.leastConn`: track the backend with the
fewest connections, ties kept at the earlier position. -/
def leastConnLoop : List Backend → Option Backend → Int → Option Backend
  | [], sel, _ => sel
  | b :: rest, sel, minConn =>
    if b.health.activeConnections < minConn then
      leastConnLoop rest (some b) b.health.activeConnections
    else leastConnLoop rest sel minConn

/-- `LoadBalancer.leastConn`: scan from `int32` max; a never-updated
selection falls back to the first backend. -/
def leastConnGo (backends : List Backend) : Option Backend :=
  if backends.length = 0 then none
  else
    match leastConnLoop backends none (2 ^ 31 - 1) with
    | none => backends.head?
    | some b => some b

/-- UTF-8 bytes of a character, as Go's `[]byte(string)` produces. -/
def utf8Bytes (c : Char) : List Nat :=
  let n := c.toNat
  if n < 0x80 then [n]
  else if n < 0x800 then [0xC0 ||| (n >>> 6), 0x80 ||| (n &&& 0x3F)]
  else if n < 0x10000 then
    [0xE0 ||| (n >>> 12), 0x80 ||| ((n >>> 6) &&& 0x3F), 0x80 ||| (n &&& 0x3F)]
  else
    [0xF0 ||| (n >>> 18), 0x80 ||| ((n >>> 12) &&& 0x3F),
     0x80 ||| ((n >>> 6) &&& 0x3F), 0x80 ||| (n &&& 0x3F)]

/-- The byte sequence of a string. -/
def stringUTF8Bytes (s : String) : List Nat :=
  s.data.flatMap utf8Bytes

/-- 32-bit FNV-1a over a byte sequence (`hash/fnv`, `New32a`). -/
def fnv32a (bytes : List Nat) : Nat :=
  bytes.foldl (fun h b => ((h ^^^ b) * 16777619) % 2 ^ 32) 2166136261

/-- The request data `extractClientIP` consults; a header absent from
the request reads as `""` (`http.Header.Get`). -/
structure ProxyRequest where
  xForwardedFor : String
  xRealIP : String
  remoteAddr : String
  deriving DecidableEq, Repr

/-- Go `unicode.IsSpace` restricted to the whitespace the program
meets (ASCII space classes plus NEL and NBSP). -/
def goSpace (c : Char) : Bool :=
  c = ' ' || c = '\t' || c = '\n' || c = '\x0b' || c = '\x0c' || c = '\r' ||
    c = '\x85' || c = '\xa0'

/-- `strings.TrimSpace`. -/
def goTrimSpace (s : String) : String :=
  ⟨((s.data.dropWhile goSpace).reverse.dropWhile goSpace).reverse⟩

/-- Index of the last occurrence of a character (`strings.LastIndex`
with a one-character needle). -/
def lastIndexOfChar (cs : List Char) (c : Char) : Option Nat :=
  match cs.reverse.findIdx? (· == c) with
  | some i => some (cs.length - 1 - i)
  | none => none

/-- `extractClientIP`: first `X-Forwarded-For` entry, else `X-Real-IP`,
else the remote address with everything from the last colon dropped. -/
def extractClientIP (r : ProxyRequest) : String :=
  if r.xForwardedFor ≠ "" then
    goTrimSpace ((goSplit r.xForwardedFor ',').headD "")
  else if r.xRealIP ≠ "" then r.xRealIP
  else
    match lastIndexOfChar r.remoteAddr.data ':' with
    | some i => ⟨r.remoteAddr.data.take i⟩
    | none => r.remoteAddr

/-- `LoadBalancer.ipHash`: FNV-1a of the client IP modulo the backend
count. -/
def ipHashGo (req : ProxyRequest) (backends : List Backend) : Option Backend :=
  if backends.length = 0 then none
  else backends.get? (fnv32a (stringUTF8Bytes (extractClientIP req)) % backends.length)

/-- Weight normalisation: non-positive weights count as 1. -/
def normWeight (b : Backend) : Int :=
  if b.weight ≤ 0 then 1 else b.weight

/-- Walk of `LoadBalancer.weighted`: subtract weights until the index
goes negative; a completed walk falls back to the first backend. -/
def weightedWalk (all : List Backend) : List Backend → Int → Option Backend
  | [], _ => all.head?
  | b :: rest, idx =>
    if idx - normWeight b < 0 then some b else weightedWalk all rest (idx - normWeight b)

/-- `LoadBalancer.weighted`: round-robin counter modulo the total
normalised weight, then the weight walk. -/
def weightedGo (backends : List Backend) (counter : Int) : Int × Option Backend :=
  if backends.length = 0 then (counter, none)
  else
    let totalWeight := backends.foldl (fun acc b => acc + normWeight b) 0
    if totalWeight = 0 then (counter, backends.head?)
    else
      let c := int32wrap (counter + 1)
      (c, weightedWalk backends backends (Int.tmod c totalWeight))

/-- `LoadBalancer.healthyBackends`. -/
def healthyBackends (backends : List Backend) : List Backend :=
  backends.filter (fun b => b.health.status == "healthy")

/-- `LoadBalancer.SelectBackend`: filter to healthy, then dispatch on
the strategy string (unknown strategies fall back to round-robin). -/
def selectBackendGo (strategy : String) (backends : List Backend) (counter : Int)
    (req : ProxyRequest) : Int × Option Backend :=
  if (healthyBackends backends).length = 0 then (counter, none)
  else if strategy = "round-robin" then roundRobinGo (healthyBackends backends) counter
  else if strategy = "least-conn" then (counter, leastConnGo (healthyBackends backends))
  else if strategy = "ip-hash" then (counter, ipHashGo req (healthyBackends backends))
  else if strategy = "weighted" then weightedGo (healthyBackends backends) counter
  else roundRobinGo (healthyBackends backends) counter

/-- The client-visible outcome of `HTTPProxy.ServeHTTP`. -/
inductive ProxyResponse where
  | serviceUnavailable
  | proxied (b : Backend)
  deriving DecidableEq, Repr

/-- `HTTPProxy.ServeHTTP`: no backend means HTTP 503, otherwise the
request is proxied to the selected backend. -/
def serveHTTPGo (strategy : String) (backends : List Backend) (counter : Int)
    (req : ProxyRequest) : ProxyResponse :=
  match (selectBackendGo strategy backends counter req).2 with
  | none => .serviceUnavailable
  | some b => .proxied b

/-- A backend produced by `roundRobin` is in the list it was given. -/
theorem roundRobinGo_mem {backends : List Backend} {counter : Int} {b : Backend}
    (h : (roundRobinGo backends counter).2 = some b) : b ∈ backends := by
  unfold roundRobinGo at h
  split at h
  · cases h
  · simp only at h
    split at h
    · exact List.get?_mem h
    · cases h

/-- A backend produced by the least-connections loop is in the scanned
list or was the incoming selection. -/
theorem leastConnLoop_mem {l : List Backend} {sel : Option Backend} {minConn : Int}
    {b : Backend} (h : leastConnLoop l sel minConn = some b) :
    b ∈ l ∨ sel = some b := by
  induction l generalizing sel minConn with
  | nil => exact Or.inr h
  | cons x rest ih =>
    unfold leastConnLoop at h
    split at h
    · rcases ih h with hm | hs
      · exact Or.inl (List.mem_cons_of_mem _ hm)
      · cases hs; exact Or.inl (List.mem_cons_self _ _)
    · rcases ih h with hm | hs
      · exact Or.inl (List.mem_cons_of_mem _ hm)
      · exact Or.inr hs

/-- A backend produced by `leastConn` is in the list it was given. -/
theorem leastConnGo_mem {backends : List Backend} {b : Backend}
    (h : leastConnGo backends = some b) : b ∈ backends := by
  unfold leastConnGo at h
  split at h
  · cases h
  · split at h
    · cases backends with
      | nil => cases h
      | cons x rest => cases h; exact List.mem_cons_self _ _
    · rename_i b' hloop
      cases h
      rcases leastConnLoop_mem hloop with hm | hs
      · exact hm
      · cases hs

/-- A backend produced by `ipHash` is in the list it was given. -/
theorem ipHashGo_mem {req : ProxyRequest} {backends : List Backend} {b : Backend}
    (h : ipHashGo req backends = some b) : b ∈ backends := by
  unfold ipHashGo at h
  split at h
  · cases h
  · exact List.get?_mem h

/-- A backend produced by the weight walk is in the walked list or in
the full list. -/
theorem weightedWalk_mem {all l : List Backend} {idx : Int} {b : Backend}
    (h : weightedWalk all l idx = some b) : b ∈ l ∨ b ∈ all := by
  induction l generalizing idx with
  | nil =>
    unfold weightedWalk at h
    cases all with
    | nil => cases h
    | cons x rest => cases h; exact Or.inr (List.mem_cons_self _ _)
  | cons x rest ih =>
    unfold weightedWalk at h
    split at h
    · cases h; exact Or.inl (List.mem_cons_self _ _)
    · rcases ih h with hm | ha
      · exact Or.inl (List.mem_cons_of_mem _ hm)
      · exact Or.inr ha

/-- A backend produced by `weighted` is in the list it was given. -/
theorem weightedGo_mem {backends : List Backend} {counter : Int} {b : Backend}
    (h : (weightedGo backends counter).2 = some b) : b ∈ backends := by
  unfold weightedGo at h
  split at h
  · cases h
  · simp only at h
    split at h
    · cases backends with
      | nil => cases h
      | cons x rest => cases h; exact List.mem_cons_self _ _
    · rcases weightedWalk_mem h with hm | hm <;> exact hm

/-- Membership in the healthy filter forces a healthy status. -/
theorem healthyBackends_status {backends : List Backend} {b : Backend}
    (h : b ∈ healthyBackends backends) : b.health.status = "healthy" := by
  have := (List.mem_filter.mp h).2
  simpa using this

/-- Claim C5: every backend returned by `SelectBackend` — under any of
the four strategies and the fallback — belongs to the healthy subset of
the route's backends and has status `healthy` at selection; an empty
healthy subset selects nothing and `ServeHTTP` answers 503. -/
theorem select_backend_healthy_or_503 (strategy : String) (backends : List Backend)
    (counter : Int) (req : ProxyRequest) :
    (∀ b, (selectBackendGo strategy backends counter req).2 = some b →
      b ∈ healthyBackends backends ∧ b.health.status = "healthy") ∧
    (healthyBackends backends = [] →
      (selectBackendGo strategy backends counter req).2 = none ∧
      serveHTTPGo strategy backends counter req = .serviceUnavailable) := by
  constructor
  · intro b hb
    have hmem : b ∈ healthyBackends backends := by
      unfold selectBackendGo at hb
      split at hb
      · cases hb
      · split at hb
        · exact roundRobinGo_mem hb
        · split at hb
          · exact leastConnGo_mem hb
          · split at hb
            · exact ipHashGo_mem hb
            · split at hb
              · exact weightedGo_mem hb
              · exact roundRobinGo_mem hb
    exact ⟨hmem, healthyBackends_status hmem⟩
  · intro hempty
    have hsel : (selectBackendGo strategy backends counter req).2 = none := by
      unfold selectBackendGo
      rw [hempty]
      rfl
    exact ⟨hsel, by unfold serveHTTPGo; rw [hsel]⟩

/-- Witness for `select_backend_healthy_or_503`: one healthy backend
under round-robin is selected and is healthy; with no healthy backend
the response is 503. -/
theorem select_backend_healthy_witness :
    (Backend.mk "api1" "http://127.0.0.1:9001" 1 { status := "healthy", activeConnections := 0 }
        ∈ healthyBackends
          [Backend.mk "api1" "http://127.0.0.1:9001" 1
            { status := "healthy", activeConnections := 0 }] ∧
      (Backend.mk "api1" "http://127.0.0.1:9001" 1
          { status := "healthy", activeConnections := 0 }).health.status = "healthy") ∧
    serveHTTPGo "round-robin"
        [Backend.mk "down" "http://127.0.0.1:9002" 1
          { status := "unhealthy", activeConnections := 0 }] 0
        { xForwardedFor := "", xRealIP := "", remoteAddr := "10.0.0.1:55000" } =
      .serviceUnavailable :=
  ⟨(select_backend_healthy_or_503 "round-robin"
      [Backend.mk "api1" "http://127.0.0.1:9001" 1 { status := "healthy", activeConnections := 0 }]
      0 { xForwardedFor := "", xRealIP := "", remoteAddr := "10.0.0.1:55000" }).1
      (Backend.mk "api1" "http://127.0.0.1:9001" 1 { status := "healthy", activeConnections := 0 })
      (by decide),
    ((select_backend_healthy_or_503 "round-robin"
      [Backend.mk "down" "http://127.0.0.1:9002" 1 { status := "unhealthy", activeConnections := 0 }]
      0 { xForwardedFor := "", xRealIP := "", remoteAddr := "10.0.0.1:55000" }).2
      (by decide)).2⟩

/-! ## Core D: round-robin selection windows

The round-robin fairness claim quantifies over `2·N+1` consecutive
selections starting from an arbitrary counter state.  `rrRun` iterates
`roundRobin` over the healthy list, threading the `int32` counter. -/

/-- Iterate `roundRobin` `k` times, collecting the selections. -/
def rrRun (backends : List α) (counter : Int) : Nat → Int × List (Option α)
  | 0 => (counter, [])
  | k + 1 =>
    ((rrRun backends (roundRobinGo backends counter).1 k).1,
      (roundRobinGo backends counter).2 ::
        (rrRun backends (roundRobinGo backends counter).1 k).2)

/-- The selections of `k` consecutive round-robin calls. -/
def rrSelections (backends : List α) (counter : Int) (k : Nat) : List (Option α) :=
  (rrRun backends counter k).2

/-- Counterexample to claim C8 as stated: over two backends (the slots
of `List.range 2`), the window of `2·2+1 = 5` consecutive selections
starting at counter `2147483645` crosses the `int32` wrap-around;
backend 1 is selected only once (and one selection panics on a negative
slice index). -/
theorem round_robin_window_wrap_cex :
    (1 ∈ List.range 2) ∧
      rrSelections (List.range 2) 2147483645 5 =
        [some 0, some 1, some 0, none, some 0] ∧
      ¬ 2 ≤ (rrSelections (List.range 2) 2147483645 5).count (some 1) := by
  refine ⟨by decide, by decide, by decide⟩

/-- An integer already in the signed 32-bit range is left unchanged by
the wrap. -/
theorem int32wrap_eq_self {x : Int} (h1 : -(2 ^ 31) ≤ x) (h2 : x < 2 ^ 31) :
    int32wrap x = x := by
  unfold int32wrap
  rw [Int.emod_eq_of_lt (by omega) (by omega)]
  omega

/-- One overflow-free round-robin step over `List.range N`. -/
theorem roundRobinGo_step (N : Nat) (hN : 1 ≤ N) (c : Int) (hc : 0 ≤ c)
    (hlt : c + 1 < 2 ^ 31) :
    roundRobinGo (List.range N) c = (c + 1, some ((c + 1).toNat % N)) := by
  unfold roundRobinGo
  rw [List.length_range]
  rw [if_neg (by omega)]
  have hwrap : int32wrap (c + 1) = c + 1 := int32wrap_eq_self (by omega) hlt
  have htoNat : ((c + 1).toNat : Int) = c + 1 := Int.toNat_of_nonneg (by omega)
  have htm : Int.tmod (c + 1) (Int.ofNat N) = Int.ofNat ((c + 1).toNat % N) := by
    rw [← htoNat]
    exact (Int.ofNat_tmod _ _).symm
  simp only [hwrap, htm]
  have hpos : (0 : Int) ≤ Int.ofNat ((c + 1).toNat % N) := Int.ofNat_zero_le _
  rw [if_pos hpos]
  have hmod : (Int.ofNat ((c + 1).toNat % N)).toNat = (c + 1).toNat % N := rfl
  rw [hmod, List.get?_range (Nat.mod_lt _ (by omega))]

/-- Overflow-free windows of round-robin selections are successive
residues modulo `N`. -/
theorem rrRun_eq_map (N : Nat) (hN : 1 ≤ N) :
    ∀ (k : Nat) (c : Int), 0 ≤ c → c + k < 2 ^ 31 →
      rrSelections (List.range N) c k =
        (List.range k).map (fun t => some ((c.toNat + 1 + t) % N)) := by
  intro k
  induction k with
  | zero => intro c _ _; rfl
  | succ k ih =>
    intro c hc hw
    have hstep := roundRobinGo_step N hN c hc (by push_cast at hw ⊢; omega)
    have hcons : rrSelections (List.range N) c (k + 1) =
        (roundRobinGo (List.range N) c).2 ::
          rrSelections (List.range N) (roundRobinGo (List.range N) c).1 k := rfl
    rw [hcons, hstep]
    have hc1 : (c + 1).toNat = c.toNat + 1 := by omega
    rw [ih (c + 1) (by omega) (by push_cast at hw ⊢; omega)]
    rw [List.range_succ_eq_map, List.map_cons, List.map_map]
    simp only [hc1]
    refine congrArg₂ _ (by norm_num) ?_
    apply List.map_congr_left
    intro t _
    simp only [Function.comp]
    rw [show c.toNat + 1 + 1 + t = c.toNat + 1 + (t + 1) from by omega]

/-- Counting a fixed value over `List.range N`. -/
theorem countP_range_eq (N r : Nat) :
    (List.range N).countP (fun t => t == r) = if r < N then 1 else 0 := by
  induction N with
  | zero => simp
  | succ n ih =>
    rw [List.range_succ, List.countP_append, ih, List.countP_cons]
    simp only [List.countP_nil, beq_iff_eq]
    split_ifs <;> omega

/-- Exactly one position in `N` consecutive integers hits a given
residue class modulo `N`. -/
theorem countP_mod_range (a N j : Nat) (hN : 1 ≤ N) (hj : j < N) :
    (List.range N).countP (fun t => (a + t) % N == j) = 1 := by
  have hbN : a % N < N := Nat.mod_lt _ (by omega)
  have hcong : ∀ t ∈ List.range N,
      ((a + t) % N == j) ↔ ((a % N + t) % N == j) := by
    intro t ht
    rw [Nat.add_mod a t, Nat.mod_eq_of_lt (List.mem_range.mp ht)]
  rw [List.countP_congr hcong]
  set b := a % N with hb
  set r := if b ≤ j then j - b else N + j - b with hr
  have hrN : r < N := by rw [hr]; split <;> omega
  have hpt : ∀ t ∈ List.range N, ((b + t) % N == j) ↔ (t == r) := by
    intro t ht
    have htN := List.mem_range.mp ht
    have key : (b + t) % N = j ↔ t = r := by
      rcases Nat.lt_or_ge (b + t) N with h | h
      · rw [Nat.mod_eq_of_lt h, hr]
        split <;> omega
      · rw [Nat.mod_eq_sub_mod h, Nat.mod_eq_of_lt (by omega), hr]
        split <;> omega
    simpa using key
  rw [List.countP_congr hpt, countP_range_eq]
  rw [if_pos hrN]

/-- Over `2·N+1` consecutive integers, every residue class modulo `N`
is hit at least twice and at most three times. -/
theorem window_count_bounds (a N j : Nat) (hN : 1 ≤ N) (hj : j < N) :
    2 ≤ (List.range (2 * N + 1)).countP (fun t => (a + t) % N == j) ∧
      (List.range (2 * N + 1)).countP (fun t => (a + t) % N == j) ≤ 3 := by
  have hsplit : 2 * N + 1 = N + (N + 1) := by omega
  rw [hsplit, List.range_add, List.countP_append, List.countP_map]
  have hshift : ∀ t ∈ List.range (N + 1),
      ((fun t => (a + t) % N == j) ∘ (N + ·)) t ↔ ((a + t) % N == j) := by
    intro t _
    show ((a + (N + t)) % N == j) = true ↔ ((a + t) % N == j) = true
    rw [show a + (N + t) = a + t + N from by omega, Nat.add_mod_right]
  rw [List.countP_congr hshift]
  rw [List.range_succ, List.countP_append, countP_mod_range a N j hN hj]
  have hone : (List.countP (fun t => (a + t) % N == j) [N]) ≤ 1 := by
    rw [List.countP_cons]
    simp only [List.countP_nil]
    split <;> omega
  omega

/-- Claim C8 (amended): for `N ≥ 1` healthy backends, any `2·N+1`
consecutive round-robin selections whose window does not overflow the
`int32` counter (counter non-negative, staying below `2^31`) select each
backend slot at least twice and no more than three times. -/
theorem round_robin_window_counts (N : Nat) (c : Int) (j : Nat)
    (hN : 1 ≤ N) (hj : j < N) (hc : 0 ≤ c)
    (hw : c + (2 * (N : Int) + 1) < 2 ^ 31) :
    2 ≤ (rrSelections (List.range N) c (2 * N + 1)).count (some j) ∧
      (rrSelections (List.range N) c (2 * N + 1)).count (some j) ≤ 3 := by
  rw [rrRun_eq_map N hN (2 * N + 1) c hc (by push_cast; push_cast at hw; omega)]
  rw [List.count_eq_countP, List.countP_map]
  have hpred : ∀ t ∈ List.range (2 * N + 1),
      ((fun x => x == some j) ∘ fun t => some ((c.toNat + 1 + t) % N)) t ↔
        ((c.toNat + 1 + t) % N == j) := by
    intro t _
    show (some ((c.toNat + 1 + t) % N) == some j) = true ↔ _
    constructor
    · intro h
      simpa using h
    · intro h
      simpa using h
  rw [List.countP_congr hpred]
  exact window_count_bounds (c.toNat + 1) N j hN hj

/-- Witness for `round_robin_window_counts`: one backend, counter 0,
three selections — the single slot is chosen exactly three times. -/
theorem round_robin_window_counts_witness :
    2 ≤ (rrSelections (List.range 1) 0 3).count (some 0) ∧
      (rrSelections (List.range 1) 0 3).count (some 0) ≤ 3 :=
  round_robin_window_counts 1 0 0 (by norm_num) (by norm_num) (by norm_num)
    (by norm_num)
